import Mathlib

/-!
Shallow embedding of `src/count.py` (AoU_scripts): a variant-intersection
script that reads a weights CSV and a PLINK BIM file, normalizes
(chromosome, position) keys, intersects the two key sets, and reports a
match count, a percentage and bounded example lists.

Modelling conventions:
* Python strings are `String`; a pandas missing value (the NaN produced for
  an absent split field, or for a blank weights pos field, which stays
  missing even under `dtype=str`) is `Option.none`, so a canonical key is
  `String × Option String`.  Set operations on keys match the `np.nan`
  singleton against itself (Python containment compares by identity first),
  so in the key space the missing value is equal to itself and to no
  string.
* Python floats are `Rat` (only the percentage formula is at stake).
* Python exceptions are values of `Except PyError`.
* `pandas.Series.str.replace("chr", "", case=False)` takes the regex path of
  the pandas string accessor (`case=False` sets the IGNORECASE flag, which
  forces a compiled pattern even under `regex=False` defaults), so every
  occurrence of "chr" is removed in one left-to-right scan, not only a
  leading one.
-/

namespace CountPy

/-- One parsed row of the weights CSV (columns chr, pos, effect_allele,
weight, id), as read by `read_weights_file` (src/count.py lines 41-45).
A blank pos field is read as NaN even under `dtype=str` and `.str.strip()`
keeps it missing, so pos is `Option String` with `none` for the pandas
missing value. -/
structure WeightsRow where
  chr : String
  pos : Option String
  effect_allele : String
  weight : Rat
  id : String
deriving Repr, DecidableEq

/-- One parsed row of the BIM file (columns 0, 1, 4, 5), as read by
`read_bim_file` (src/count.py lines 12-19). -/
structure BimRow where
  chrom : String
  variant : String
  allele1 : String
  allele2 : String
deriving Repr, DecidableEq

/-- A canonical key: normalized chromosome and (possibly missing) position. -/
abbrev Key := String × Option String

/-- Python `str.strip()`: drop leading and trailing whitespace. -/
def pyStrip (s : String) : String :=
  String.mk (((s.data.dropWhile Char.isWhitespace).reverse.dropWhile Char.isWhitespace).reverse)

/-- Helper for `pySplit`: accumulate the current field (reversed) while
scanning the remaining characters. -/
def pySplitAux (sep : Char) : List Char → List Char → List String
  | [], acc => [String.mk acc.reverse]
  | c :: cs, acc =>
    if c == sep then String.mk acc.reverse :: pySplitAux sep cs []
    else pySplitAux sep cs (c :: acc)

/-- Python `str.split(sep)` for a one-character separator (the script only
splits on ":"). `"".split(":") = [""]`, so the result is never empty. -/
def pySplit (s : String) (sep : Char) : List String :=
  pySplitAux sep s.data []

/-- One left-to-right pass removing every case-insensitive occurrence of
"chr", as `re.sub` with IGNORECASE does for the pandas replace on
src/count.py lines 21, 24 and 47. -/
def removeChrAux : List Char → List Char
  | [] => []
  | [c] => [c]
  | [c, h] => [c, h]
  | c :: h :: r :: rest =>
    if c.toLower == 'c' && h.toLower == 'h' && r.toLower == 'r' then
      removeChrAux rest
    else
      c :: removeChrAux (h :: r :: rest)

/-- `Series.str.replace("chr", "", case=False)` followed by `.str.strip()`:
src/count.py lines 21, 24 and 47. -/
def normalizeChrom (s : String) : String :=
  pyStrip (String.mk (removeChrAux s.data))

example : normalizeChrom "chr22" = "22" := by decide

example : normalizeChrom " Chr22 " = "22" := by decide

example : normalizeChrom "1chr" = "1" := by decide

example : pySplit "22:100:A:T" ':' = ["22", "100", "A", "T"] := by decide

example : pySplit "22100" ':' = ["22100"] := by decide

/-- The hard-coded target chromosome of `main` (src/count.py line 134). -/
def target_chrom : String := "22"

/-- The canonical key of a (normalized, filtered) weights row: the pair
`zip` builds on src/count.py line 51.  A blank pos field survives as the
`np.nan` singleton, which Python set operations match by identity, so in
the key space the missing value compares equal to itself (and never to an
actual string). -/
def weightsKey (r : WeightsRow) : Key :=
  (r.chr, r.pos)

/-- Normalization of the weights frame (src/count.py lines 47-48) followed
by the chromosome filter (line 49); this is the `weights_df` that
`read_weights_file` returns.  `.str.strip()` maps a missing pos to a
missing pos. -/
def weightsFiltered (rows : List WeightsRow) (target : String) : List WeightsRow :=
  ((rows.map fun r => { r with chr := normalizeChrom r.chr, pos := r.pos.map pyStrip }).filter
    fun r => r.chr == target)

/-- `weights_positions = set(zip(weights_df['chr'], weights_df['pos']))`
(src/count.py line 51). -/
def weightsPositions (rows : List WeightsRow) (target : String) : Finset Key :=
  ((weightsFiltered rows target).map weightsKey).toFinset

/-- `total_weights_positions = len(weights_positions)` (src/count.py
line 52). -/
def total_weights_positions (rows : List WeightsRow) (target : String) : Nat :=
  (weightsPositions rows target).card

/-- The key extracted from one BIM row (src/count.py lines 23-25): split the
composite variant token on ':', normalize field 0, strip field 1.  When the
token has fewer than two fields, `expand=True` pads with a missing value and
`.str.strip()` keeps it missing, modelled as `none`. -/
def bimKey (r : BimRow) : Key :=
  let fields := pySplit r.variant ':'
  (normalizeChrom (fields.headD ""), (fields.get? 1).map pyStrip)

/-- `bim_positions = set(zip(bim_df['chrom_variant'], bim_df['pos_variant']))`
(src/count.py line 27), for a frame whose `split_variants[1]` column exists. -/
def panelKeys (rows : List BimRow) : Finset Key :=
  (rows.map bimKey).toFinset

/-- `split_variants[1]` (src/count.py line 25) only exists when some row has
at least two ':'-fields; on an all-malformed or empty frame the lookup (or
the CSV read) raises, the handler on lines 30-32 catches it, and
`read_bim_file` returns an empty set. -/
def hasCol1 (rows : List BimRow) : Bool :=
  rows.any fun r => 2 ≤ (pySplit r.variant ':').length

/-- The key set produced by `read_bim_file` (src/count.py lines 5-32):
empty when the file is unreadable, when the frame is empty, or when no row
has a ':' in its variant token (all these raise inside the `try` and the
handler returns `set()`). -/
def bim_positions_read (readable : Bool) (rows : List BimRow) : Finset Key :=
  if readable && hasCol1 rows then panelKeys rows else ∅

/-- `find_matches` (src/count.py lines 66-78): the matched key set, the
matched count, and the percentage, with the `total > 0` guard of line 75. -/
def find_matches (w b : Finset Key) : Finset Key × Nat × Rat :=
  let matched := w ∩ b
  let mc := matched.card
  let total := w.card
  (matched, mc, if 0 < total then (mc : Rat) / (total : Rat) * 100 else 0)

example :
    weightsPositions [⟨"chr22", some "100", "A", 1, "v1"⟩, ⟨"3", some "5", "C", 1, "v2"⟩]
      target_chrom = {(("22" : String), some "100")} := by decide

example : bimKey ⟨"chr22", "chr22:100:A:T", "A", "T"⟩ = ("22", some "100") := by decide

example : bimKey ⟨"22", "22100", "A", "T"⟩ = ("22100", none) := by decide

/-- The Python exceptions that `collect_examples` can raise. -/
inductive PyError where
  | typeError
  | nameError
  | indexError
deriving Repr, DecidableEq

/-- The match-example record built on src/count.py lines 102-111. -/
structure ExampleMatch where
  weights_chr : String
  weights_pos : Option String
  weights_effect_allele : String
  weights_weight : Rat
  weights_id : String
  bim_chrom : String
  bim_pos : Option String
  bim_variant : String
deriving Repr, DecidableEq

/-- The non-match record of src/count.py lines 120-127 (never actually
constructed at runtime: line 114 raises first). -/
structure ExampleNonMatch where
  weights_chr : String
  weights_pos : Option String
  weights_effect_allele : String
  weights_weight : Rat
  weights_id : String
  match_status : String
deriving Repr, DecidableEq

/-- `weights_df[(weights_df['chr'] == chr_) & (weights_df['pos'] == pos)].iloc[0]`
(src/count.py line 95): first row whose chr/pos columns equal the matched
key's components, `none` when `.iloc[0]` would raise IndexError. -/
def lookupWeights (wdf : List WeightsRow) (c : String) (p : Option String) : Option WeightsRow :=
  (wdf.filter fun r => r.chr == c && r.pos == p).head?

/-- `bim_df[(bim_df['chrom_variant'] == chr_) & (bim_df['pos_variant'] == pos)].iloc[0]`
(src/count.py line 97). -/
def lookupBim (bdf : List BimRow) (c : String) (p : Option String) : Option BimRow :=
  (bdf.filter fun r => (bimKey r).1 == c && (bimKey r).2 == p).head?

/-- Src/count.py lines 99-100: `bim_row['allele1'].replace('[ACTG]', 'X', regex=True)`.
`bim_row['allele1']` is a plain Python `str` (the frame columns have dtype
`str` and `.iloc[0]` yields scalars), and `str.replace` accepts no `regex`
keyword, so this call raises `TypeError` unconditionally, whatever the
allele content. -/
def maskAlleles (_a : String) : Except PyError String :=
  Except.error PyError.typeError

/-- The `for variant in matched_list` loop of src/count.py lines 92-111:
fetch the weights row and the BIM row (IndexError when absent), mask the
alleles (always a TypeError, see `maskAlleles`), and append the record. -/
def collectMatchLoop (wdf : List WeightsRow) (bdf : List BimRow) :
    List Key → Except PyError (List ExampleMatch)
  | [] => Except.ok []
  | (c, p) :: rest => do
    let wr ←
      match lookupWeights wdf c p with
      | some r => Except.ok r
      | none => Except.error PyError.indexError
    let br ←
      match lookupBim bdf c p with
      | some r => Except.ok r
      | none => Except.error PyError.indexError
    let a1 ← maskAlleles br.allele1
    let a2 ← maskAlleles br.allele2
    let tail ← collectMatchLoop wdf bdf rest
    Except.ok
      ({ weights_chr := wr.chr, weights_pos := wr.pos,
         weights_effect_allele := wr.effect_allele, weights_weight := wr.weight,
         weights_id := wr.id, bim_chrom := normalizeChrom br.chrom,
         bim_pos := (bimKey br).2,
         bim_variant := (bimKey br).1 ++ ":" ++ ((bimKey br).2.getD "nan")
           ++ ":" ++ a1 ++ ":" ++ a2 } :: tail)

/-- `collect_examples` (src/count.py lines 80-129).  The set argument
`matched_positions` is represented by one of its enumerations
(`list(matched_positions)` has an unspecified order in Python, and every
theorem below holds for every enumeration).  The match loop runs over
`list(matched_positions)[:example_limit]` when the set is truthy (lines
90-91); afterwards line 114 evaluates the name `weights_positions`, which is
bound neither as a parameter nor at module scope, so the function raises
`NameError` whenever the loop itself did not already raise. -/
def collect_examples (wdf : List WeightsRow) (matchedList : List Key) (bdf : List BimRow)
    (limit : Nat) : Except PyError (List ExampleMatch × List ExampleNonMatch) := do
  let _ ←
    if matchedList.isEmpty then Except.ok []
    else collectMatchLoop wdf bdf (matchedList.take limit)
  Except.error PyError.nameError

/-- `matched_list = list(matched_positions)[:example_limit]` (src/count.py
line 91), over an enumeration of the matched set. -/
def match_sample_selection (matchedList : List Key) (limit : Nat) : List Key :=
  matchedList.take limit

/-- `non_matched_list = list(non_matched_positions)[:example_limit]`
(src/count.py line 115), over an enumeration of the would-be difference set
of line 114 (whose evaluation in fact raises NameError first). -/
def non_match_sample_selection (nonMatchedList : List Key) (limit : Nat) : List Key :=
  nonMatchedList.take limit

/-- The outside world a run of `main` observes: whether each input file exists
(`os.path.isfile`, src/count.py lines 137, 140), whether each can be read and
parsed by `pd.read_csv` (the `try` bodies), and the parsed rows when it can. -/
structure Env where
  weightsExists : Bool
  bimExists : Bool
  weightsReadable : Bool
  bimReadable : Bool
  weightsRows : List WeightsRow
  bimRows : List BimRow
deriving Repr

/-- The weights frame returned by `read_weights_file` (src/count.py lines
34-64): the normalized, filtered frame on success, an empty frame when the
read raised and the handler of lines 62-64 fired. -/
def wdfOf (env : Env) : List WeightsRow :=
  if env.weightsReadable then weightsFiltered env.weightsRows target_chrom else []

/-- The weights key set returned by `read_weights_file`: empty when the
read raised. -/
def wposOf (env : Env) : Finset Key :=
  if env.weightsReadable then weightsPositions env.weightsRows target_chrom else ∅

/-- The BIM key set returned by `read_bim_file` (src/count.py lines 5-32). -/
def bposOf (env : Env) : Finset Key :=
  bim_positions_read env.bimReadable env.bimRows

/-- The BIM frame returned by `read_bim_file`: empty exactly when the key
set is (the handler of lines 30-32 returns both empty). -/
def bdfOf (env : Env) : List BimRow :=
  if env.bimReadable && hasCol1 env.bimRows then env.bimRows else []

/-- The matched set of the run, as `find_matches` computes it
(src/count.py line 155). -/
def matchedOf (env : Env) : Finset Key :=
  (find_matches (wposOf env) (bposOf env)).1

/-- A concrete enumeration of the matched set (the model of
`list(matched_positions)`): the distinct weights keys, in frame order,
that the BIM key set contains. -/
def matchedListOf (env : Env) : List Key :=
  (((wdfOf env).map weightsKey).dedup).filter fun k => decide (k ∈ bposOf env)

/-- What a run of `main` (src/count.py lines 131-183) ends as.  A `return`
from `main` lets the interpreter exit with status 0; an uncaught exception
aborts the process with status 1. -/
inductive RunOutcome where
  | missingWeights
  | missingBim
  | emptyWeights
  | uncaught (e : PyError)
  | reportPrinted (matchedCount : Nat) (percentage : Rat)
deriving Repr, DecidableEq

/-- `main` (src/count.py lines 131-183): file checks (lines 137-142), the
two reads (lines 145, 148 — outcome-wise their order does not matter; the
event trace `mainTrace` records it), the empty-weights early return (lines
150-152), `find_matches` (line 155), `collect_examples` (line 158), and the
final report (lines 161-183). -/
def runMain (env : Env) : RunOutcome :=
  if env.weightsExists = false then .missingWeights
  else if env.bimExists = false then .missingBim
  else if wposOf env = ∅ then .emptyWeights
  else
    match collect_examples (wdfOf env) (matchedListOf env) (bdfOf env) 5 with
    | .error e => .uncaught e
    | .ok _ =>
      .reportPrinted (find_matches (wposOf env) (bposOf env)).2.1
        (find_matches (wposOf env) (bposOf env)).2.2

/-- The process exit status: 0 when `main` returns (all `return`
statements), 1 when an exception escapes. -/
def exitCode (env : Env) : Nat :=
  match runMain env with
  | .uncaught _ => 1
  | _ => 0

/-- The externally visible steps of a run, in program order. -/
inductive Event where
  | readBim
  | readWeights
  | findMatches
  | collectExamples
  | printReport
deriving Repr, DecidableEq

/-- The ordered steps `main` performs: nothing after a failed file check;
otherwise the BIM read (line 145) strictly before the weights read (line
148); `find_matches` and `collect_examples` only when the weights key set is
non-empty; the final report only when `collect_examples` returns. -/
def mainTrace (env : Env) : List Event :=
  if env.weightsExists = false then []
  else if env.bimExists = false then []
  else
    Event.readBim :: Event.readWeights ::
      (if wposOf env = ∅ then []
       else Event.findMatches :: Event.collectExamples ::
         (match collect_examples (wdfOf env) (matchedListOf env) (bdfOf env) 5 with
          | .error _ => []
          | .ok _ => [Event.printReport]))

/-- Chromosome normalization as the specification words it, stated for
comparison with the code's `normalizeChrom`: strip surrounding whitespace
and a case-insensitive leading "chr" token, changing nothing else. -/
def specNormalizeChrom (raw : String) : String :=
  let t := pyStrip raw
  if (t.data.take 3).map Char.toLower = ['c', 'h', 'r'] then
    String.mk (t.data.drop 3)
  else t

/-- No case-insensitive occurrence of "chr" anywhere in the character
list. -/
def chrFreeB : List Char → Bool
  | c :: h :: r :: rest =>
    !(c.toLower == 'c' && h.toLower == 'h' && r.toLower == 'r') && chrFreeB (h :: r :: rest)
  | _ => true

/-- A weights row on the target chromosome. -/
def wrow1 : WeightsRow := ⟨"22", some "100", "A", 1, "v1"⟩

/-- A weights row on the target chromosome whose pos field is blank: pandas
reads it as NaN, so its canonical key is ("22", NaN). -/
def wrowBlank : WeightsRow := ⟨"22", none, "A", 1, "vb"⟩

/-- A well-formed BIM row whose key matches `wrow1`. -/
def brow1 : BimRow := ⟨"chr22", "chr22:100:A:T", "A", "T"⟩

/-- A BIM row whose composite token has no ':' separator. -/
def browBad : BimRow := ⟨"22", "22100", "A", "T"⟩

/-- A BIM row whose composite token has no ':' separator and normalizes to
the target chromosome, so its key is ("22", NaN). -/
def browBad22 : BimRow := ⟨"22", "22", "A", "T"⟩

/-- A run in which the weights file is absent. -/
def envMissingW : Env :=
  { weightsExists := false, bimExists := true, weightsReadable := true,
    bimReadable := true, weightsRows := [], bimRows := [brow1] }

/-- A run with both files present and readable but no weights row on the
target chromosome. -/
def envEmptyW : Env :=
  { weightsExists := true, bimExists := true, weightsReadable := true,
    bimReadable := true, weightsRows := [], bimRows := [brow1] }

/-- A run in which the BIM file exists but cannot be read or parsed, while
the weights file is fine and non-empty. -/
def envBadBim : Env :=
  { weightsExists := true, bimExists := true, weightsReadable := true,
    bimReadable := false, weightsRows := [wrow1], bimRows := [brow1] }

/-- Every key the weights index retains carries the target chromosome. -/
lemma weightsPositions_fst {rows : List WeightsRow} {target : String} {k : Key}
    (hk : k ∈ weightsPositions rows target) : k.1 = target := by
  rw [weightsPositions, List.mem_toFinset] at hk
  obtain ⟨r, hr, hrk⟩ := List.mem_map.mp hk
  rw [weightsFiltered, List.mem_filter] at hr
  have := of_decide_eq_true hr.2
  rw [← hrk, weightsKey]
  exact of_decide_eq_true hr.2

/-- Panel key extraction distributes over splitting the row list. -/
lemma panelKeys_append (l₁ l₂ : List BimRow) :
    panelKeys (l₁ ++ l₂) = panelKeys l₁ ∪ panelKeys l₂ := by
  simp [panelKeys, List.toFinset_append]

/-- The union of per-window key sets equals the key set of the whole panel:
the chunking boundary is invisible to the key space. -/
lemma panelKeys_join (chunks : List (List BimRow)) :
    (chunks.map panelKeys).foldr (· ∪ ·) ∅ = panelKeys chunks.flatten := by
  induction chunks with
  | nil => simp [panelKeys]
  | cons c cs ih => simp [List.flatten, panelKeys_append, ih]

/-- A composite token with fewer than two ':'-fields yields a key whose
position is the missing-value marker. -/
lemma bimKey_snd_none {r : BimRow} (h : (pySplit r.variant ':').length < 2) :
    (bimKey r).2 = none := by
  rw [bimKey]
  have : (pySplit r.variant ':').get? 1 = none :=
    List.get?_eq_none.mpr (Nat.lt_succ_iff.mp h)
  simp only [this, Option.map_none']

/-- The match loop never returns on a non-empty key list: one of the two
row fetches raises IndexError, or the masking line raises TypeError. -/
lemma collectMatchLoop_cons_error (wdf : List WeightsRow) (bdf : List BimRow)
    (k : Key) (rest : List Key) :
    ∃ e, collectMatchLoop wdf bdf (k :: rest) = Except.error e := by
  obtain ⟨c, p⟩ := k
  cases hw : lookupWeights wdf c p with
  | none => exact ⟨PyError.indexError, by simp only [collectMatchLoop, hw]; rfl⟩
  | some wr =>
    cases hb : lookupBim bdf c p with
    | none => exact ⟨PyError.indexError, by simp only [collectMatchLoop, hw, hb]; rfl⟩
    | some br =>
      exact ⟨PyError.typeError, by simp only [collectMatchLoop, hw, hb, maskAlleles]; rfl⟩

/-- On a chr-free character list the removal pass is the identity. -/
lemma removeChrAux_eq_self : ∀ {l : List Char}, chrFreeB l = true → removeChrAux l = l := by
  intro l
  induction l using removeChrAux.induct with
  | case1 => intro _; rfl
  | case2 => intro _; rfl
  | case3 => intro _; rfl
  | case4 c h r rest hcond _ih =>
    intro hfree
    simp only [chrFreeB, Bool.and_eq_true, Bool.not_eq_true'] at hfree
    simp [hfree.1] at hcond
  | case5 c h r rest hcond ih =>
    intro hfree
    simp only [chrFreeB, Bool.and_eq_true] at hfree
    simp only [removeChrAux, if_neg hcond]
    rw [ih hfree.2]

/-- On a token with no "chr" occurrence, normalization is exactly
`str.strip()`. -/
lemma normalizeChrom_of_chrFree {s : String} (h : chrFreeB s.data = true) :
    normalizeChrom s = pyStrip s := by
  rw [normalizeChrom, removeChrAux_eq_self h]

/-- A leading "chr" is always removed by normalization. -/
lemma normalizeChrom_chr_append (t : String) :
    normalizeChrom ("chr" ++ t) = normalizeChrom t := by
  cases t with
  | mk d => rfl

/-- The concrete enumeration of the matched set enumerates exactly the
intersection `find_matches` computes. -/
lemma matchedListOf_toFinset (env : Env) :
    (matchedListOf env).toFinset = matchedOf env := by
  have hw : ((wdfOf env).map weightsKey).toFinset = wposOf env := by
    rw [wdfOf, wposOf]
    cases env.weightsReadable with
    | false => simp
    | true => simp [weightsPositions]
  ext k
  rw [matchedListOf, List.mem_toFinset, List.mem_filter, List.mem_dedup,
    ← List.mem_toFinset, hw]
  simp [matchedOf, find_matches]

/-- The enumeration is empty exactly when the matched set is. -/
lemma matchedListOf_nil_iff (env : Env) :
    matchedListOf env = [] ↔ matchedOf env = ∅ := by
  rw [← matchedListOf_toFinset env]
  exact (List.toFinset_eq_empty_iff (matchedListOf env)).symm

/-- When the weights set is non-empty but the intersection is empty, the run
dies with the NameError of the unbound `weights_positions`. -/
lemma run_matched_empty_nameError {env : Env} (h1 : env.weightsExists = true)
    (h2 : env.bimExists = true) (hw : wposOf env ≠ ∅) (hm : matchedOf env = ∅) :
    runMain env = RunOutcome.uncaught PyError.nameError := by
  have hml : matchedListOf env = [] := (matchedListOf_nil_iff env).mpr hm
  have hcoll : collect_examples (wdfOf env) (matchedListOf env) (bdfOf env) 5
      = Except.error PyError.nameError := by
    rw [hml]; rfl
  rw [runMain]
  rw [if_neg (by simp [h1]), if_neg (by simp [h2]), if_neg hw, hcoll]

/-- C1: for well-formed sources, every key of the weights index carries the
target chromosome, `totalCount` is the number of distinct retained keys, the
matched count of `find_matches` is the cardinality of the intersection of
the two canonical key sets, and the count is invariant under any chunking of
the panel into windows. -/
theorem C1_intersection_correct (wrows : List WeightsRow) (target : String)
    (brows : List BimRow) (chunks : List (List BimRow))
    (hwf : hasCol1 brows = true) (hch : chunks.flatten = brows) :
    (∀ k ∈ weightsPositions wrows target, k.1 = target)
    ∧ total_weights_positions wrows target
        = (((weightsFiltered wrows target).map weightsKey).dedup).length
    ∧ (find_matches (weightsPositions wrows target) (bim_positions_read true brows)).2.1
        = (weightsPositions wrows target ∩ bim_positions_read true brows).card
    ∧ (weightsPositions wrows target ∩ (chunks.map panelKeys).foldr (· ∪ ·) ∅).card
        = (find_matches (weightsPositions wrows target) (bim_positions_read true brows)).2.1 := by
  refine ⟨fun k hk => weightsPositions_fst hk, ?_, rfl, ?_⟩
  · rw [total_weights_positions, weightsPositions, List.card_toFinset]
  · rw [panelKeys_join, hch, bim_positions_read]
    simp only [Bool.true_and, hwf, if_true]
    rfl

/-- Witness for C1 at a one-row weights table and a one-window panel. -/
theorem C1_intersection_correct_witness :
    hasCol1 [brow1] = true ∧ [[brow1]].flatten = [brow1]
    ∧ ((∀ k ∈ weightsPositions [wrow1] target_chrom, k.1 = target_chrom)
       ∧ total_weights_positions [wrow1] target_chrom
           = (((weightsFiltered [wrow1] target_chrom).map weightsKey).dedup).length
       ∧ (find_matches (weightsPositions [wrow1] target_chrom)
             (bim_positions_read true [brow1])).2.1
           = (weightsPositions [wrow1] target_chrom ∩ bim_positions_read true [brow1]).card
       ∧ (weightsPositions [wrow1] target_chrom
             ∩ ([[brow1]].map panelKeys).foldr (· ∪ ·) ∅).card
           = (find_matches (weightsPositions [wrow1] target_chrom)
               (bim_positions_read true [brow1])).2.1) :=
  ⟨by decide, rfl, C1_intersection_correct [wrow1] target_chrom [brow1] [[brow1]] (by decide) rfl⟩

/-- C3 counterexample: with the weights file absent, `main` prints the error
and returns, so the interpreter exits with status 0, not non-zero as the
claim states. -/
theorem C3_missing_file_exit_zero :
    envMissingW.weightsExists = false
    ∧ runMain envMissingW = RunOutcome.missingWeights
    ∧ exitCode envMissingW = 0 :=
  ⟨rfl, rfl, rfl⟩

/-- C3 amended: a missing input file halts the run with no further
processing, but the exit status is 0; a non-zero status (1) arises exactly
from the uncaught exception in `collect_examples`. -/
theorem C3_exit_status_amended (env : Env) :
    ((env.weightsExists = false ∨ env.bimExists = false) →
      exitCode env = 0 ∧ mainTrace env = [])
    ∧ (exitCode env = 1 ↔ ∃ e, runMain env = RunOutcome.uncaught e) := by
  constructor
  · intro h
    have hout : runMain env = RunOutcome.missingWeights
        ∨ runMain env = RunOutcome.missingBim := by
      rw [runMain]
      by_cases hw : env.weightsExists = false
      · left; rw [if_pos hw]
      · rcases h with h | h
        · exact absurd h hw
        · right; rw [if_neg hw, if_pos h]
    have htr : mainTrace env = [] := by
      rw [mainTrace]
      by_cases hw : env.weightsExists = false
      · rw [if_pos hw]
      · rcases h with h | h
        · exact absurd h hw
        · rw [if_neg hw, if_pos h]
    rcases hout with hout | hout
    · exact ⟨by rw [exitCode, hout], htr⟩
    · exact ⟨by rw [exitCode, hout], htr⟩
  · constructor
    · intro h1
      cases hr : runMain env with
      | uncaught e => exact ⟨e, rfl⟩
      | missingWeights => rw [exitCode, hr] at h1; simp at h1
      | missingBim => rw [exitCode, hr] at h1; simp at h1
      | emptyWeights => rw [exitCode, hr] at h1; simp at h1
      | reportPrinted mc pct => rw [exitCode, hr] at h1; simp at h1
    · intro ⟨e, he⟩
      rw [exitCode, he]

/-- Witness for the amended C3 at a run whose weights file is absent. -/
theorem C3_exit_status_amended_witness :
    (envMissingW.weightsExists = false ∨ envMissingW.bimExists = false)
    ∧ (exitCode envMissingW = 0 ∧ mainTrace envMissingW = []) :=
  ⟨Or.inl rfl, (C3_exit_status_amended envMissingW).1 (Or.inl rfl)⟩

/-- C4 counterexample: a run whose weights set is empty after filtering
still performs the BIM scan — indeed the scan happens first — contradicting
the claim that the scan is never invoked and that the index build completes
before the scan begins. -/
theorem C4_scan_runs_before_build :
    wposOf envEmptyW = ∅
    ∧ mainTrace envEmptyW = [Event.readBim, Event.readWeights]
    ∧ Event.readBim ∈ mainTrace envEmptyW :=
  ⟨by decide, by decide, by decide⟩

/-- C4 amended: the BIM (panel) scan runs first and completes before the
weights build begins; when the weights key set is empty after filtering, the
run terminates reporting the condition after the two reads, before the match
step. -/
theorem C4_pipeline_order_amended (env : Env) (h1 : env.weightsExists = true)
    (h2 : env.bimExists = true) :
    (mainTrace env).take 2 = [Event.readBim, Event.readWeights]
    ∧ (wposOf env = ∅ →
        runMain env = RunOutcome.emptyWeights
        ∧ mainTrace env = [Event.readBim, Event.readWeights]) := by
  constructor
  · rw [mainTrace, if_neg (by simp [h1]), if_neg (by simp [h2])]
    rfl
  · intro hw
    constructor
    · rw [runMain, if_neg (by simp [h1]), if_neg (by simp [h2]), if_pos hw]
    · rw [mainTrace, if_neg (by simp [h1]), if_neg (by simp [h2]), if_pos hw]

/-- Witness for the amended C4 at a run with an empty weights table. -/
theorem C4_pipeline_order_amended_witness :
    envEmptyW.weightsExists = true ∧ envEmptyW.bimExists = true
    ∧ wposOf envEmptyW = ∅ ∧ runMain envEmptyW = RunOutcome.emptyWeights :=
  ⟨rfl, rfl, by decide, ((C4_pipeline_order_amended envEmptyW rfl rfl).2 (by decide)).1⟩

/-- C5 (code bug): the masking line is meant to replace the nucleotide
letters with a placeholder ("Replace alleles with 'X' for privacy"), but it
calls `str.replace` on a plain string with a `regex` keyword, which raises
TypeError before anything is stored; evaluated here at a concrete matched
input. -/
theorem C5_masking_type_error :
    maskAlleles "A" = Except.error PyError.typeError
    ∧ collect_examples [wrow1] [(("22" : String), some "100")] [brow1] 5
        = Except.error PyError.typeError :=
  ⟨rfl, rfl⟩

/-- C6 counterexample: with the BIM file unreadable, the run is not aborted:
`find_matches` still executes (printing its partial counts) and the run then
dies on the `collect_examples` NameError — contradicting "fatal, no further
processing, no partial report". -/
theorem C6_unreadable_bim_not_fatal :
    envBadBim.bimReadable = false
    ∧ Event.findMatches ∈ mainTrace envBadBim
    ∧ runMain envBadBim = RunOutcome.uncaught PyError.nameError :=
  ⟨rfl, by decide, by decide⟩

/-- C6 amended: an unreadable weights file ends the run through the
empty-weights path after being reported; an unreadable BIM file is reported
but processing continues — the match step runs against an empty panel set
and the run then aborts in `collect_examples` with the NameError. -/
theorem C6_unreadable_source_amended (env : Env) (h1 : env.weightsExists = true)
    (h2 : env.bimExists = true) :
    (env.weightsReadable = false → runMain env = RunOutcome.emptyWeights)
    ∧ (env.bimReadable = false → wposOf env ≠ ∅ →
        Event.findMatches ∈ mainTrace env
        ∧ runMain env = RunOutcome.uncaught PyError.nameError) := by
  constructor
  · intro hr
    have hw : wposOf env = ∅ := by rw [wposOf, if_neg (by simp [hr])]
    rw [runMain, if_neg (by simp [h1]), if_neg (by simp [h2]), if_pos hw]
  · intro hbr hw
    have hbp : bposOf env = ∅ := by
      rw [bposOf, bim_positions_read, hbr]
      rfl
    have hm : matchedOf env = ∅ := by
      rw [matchedOf, find_matches]
      simp [hbp]
    refine ⟨?_, run_matched_empty_nameError h1 h2 hw hm⟩
    rw [mainTrace, if_neg (by simp [h1]), if_neg (by simp [h2]), if_neg hw]
    simp

/-- Witness for the amended C6 at a run with an unreadable BIM file. -/
theorem C6_unreadable_source_amended_witness :
    envBadBim.bimReadable = false ∧ wposOf envBadBim ≠ ∅
    ∧ (Event.findMatches ∈ mainTrace envBadBim
       ∧ runMain envBadBim = RunOutcome.uncaught PyError.nameError) :=
  ⟨rfl, by decide, (C6_unreadable_source_amended envBadBim rfl rfl).2 rfl (by decide)⟩

/-- C7 counterexample: the claim says a "chr" occurring other than as the
leading token is preserved, but the code also removes it: on "1chr" the code
yields "1" while the claimed leading-strip contract yields "1chr". -/
theorem C7_nonleading_chr_removed :
    normalizeChrom "1chr" = "1"
    ∧ specNormalizeChrom "1chr" = "1chr"
    ∧ normalizeChrom "1chr" ≠ specNormalizeChrom "1chr" :=
  ⟨by decide, by decide, by decide⟩

/-- C7 amended: chromosome normalization strips surrounding whitespace and
removes every case-insensitive occurrence of "chr" in one left-to-right
scan — a leading "chr" is stripped, and (unlike the claim) a non-leading
occurrence is removed too; a token with no "chr" occurrence is only
whitespace-trimmed. -/
theorem C7_normalize_chrom_amended (s : String) (h : chrFreeB s.data = true) :
    normalizeChrom s = pyStrip s
    ∧ ∀ t : String, normalizeChrom ("chr" ++ t) = normalizeChrom t :=
  ⟨normalizeChrom_of_chrFree h, normalizeChrom_chr_append⟩

/-- Witness for the amended C7 at a chr-free token. -/
theorem C7_normalize_chrom_amended_witness :
    chrFreeB ("a12" : String).data = true
    ∧ (normalizeChrom "a12" = pyStrip "a12"
       ∧ ∀ t : String, normalizeChrom ("chr" ++ t) = normalizeChrom t) :=
  ⟨by decide, C7_normalize_chrom_amended "a12" (by decide)⟩

/-- C8 counterexample: a panel row whose composite token has no ':' is not
skipped — it contributes the degenerate key ("22100", NaN) to the panel key
set, so the key set with the row differs from the key set without it;
moreover, against a weights table whose row has a blank pos field (key
("22", NaN)), such a row on the target chromosome does change the matched
count, since the NaN keys match in Python's set intersection. -/
theorem C8_malformed_row_contributes_key :
    (pySplit browBad.variant ':').length < 2
    ∧ bim_positions_read true [brow1, browBad] ≠ bim_positions_read true [brow1]
    ∧ (("22100" : String), (none : Option String)) ∈ bim_positions_read true [brow1, browBad]
    ∧ (pySplit browBad22.variant ':').length < 2
    ∧ (weightsPositions [wrowBlank] target_chrom ∩ panelKeys [brow1, browBad22]).card
        ≠ (weightsPositions [wrowBlank] target_chrom ∩ panelKeys [brow1]).card :=
  ⟨by decide, by decide, by decide, by decide, by decide⟩

/-- C8 amended: a panel row whose composite token has fewer than two
':'-fields contributes a key whose position component is the missing-value
marker (rather than being skipped); when no weights key carries a missing
position — in particular whenever every weights pos field is non-blank —
the matched count is unaffected by such a row (a blank-pos weights row on
the same normalized chromosome would instead match it, as the
counterexample shows). -/
theorem C8_malformed_row_matched_unaffected (wrows : List WeightsRow) (target : String)
    (r : BimRow) (rows : List BimRow) (h : (pySplit r.variant ':').length < 2) :
    (bimKey r).2 = none
    ∧ bimKey r ∈ panelKeys (r :: rows)
    ∧ ((∀ k ∈ weightsPositions wrows target, k.2 ≠ none) →
        (weightsPositions wrows target ∩ panelKeys (r :: rows)).card
          = (weightsPositions wrows target ∩ panelKeys rows).card) := by
  refine ⟨bimKey_snd_none h, ?_, fun hsome => ?_⟩
  · rw [panelKeys, List.mem_toFinset]
    exact List.mem_map_of_mem bimKey (List.mem_cons_self r rows)
  · have hkey : bimKey r ∉ weightsPositions wrows target := by
      intro hmem
      exact hsome (bimKey r) hmem (bimKey_snd_none h)
    have hins : panelKeys (r :: rows) = insert (bimKey r) (panelKeys rows) := by
      rw [panelKeys, panelKeys, List.map_cons, List.toFinset_cons]
    rw [hins, Finset.inter_comm, Finset.insert_inter_of_not_mem hkey, Finset.inter_comm]

/-- Witness for the amended C8 at a concrete malformed row and a weights
table with no blank pos field. -/
theorem C8_malformed_row_matched_unaffected_witness :
    (pySplit browBad.variant ':').length < 2
    ∧ (∀ k ∈ weightsPositions [wrow1] target_chrom, k.2 ≠ none)
    ∧ ((bimKey browBad).2 = none
       ∧ bimKey browBad ∈ panelKeys (browBad :: [brow1])
       ∧ (weightsPositions [wrow1] target_chrom ∩ panelKeys (browBad :: [brow1])).card
           = (weightsPositions [wrow1] target_chrom ∩ panelKeys [brow1]).card) :=
  ⟨by decide, by decide,
   (C8_malformed_row_matched_unaffected [wrow1] target_chrom browBad [brow1] (by decide)).1,
   (C8_malformed_row_matched_unaffected [wrow1] target_chrom browBad [brow1] (by decide)).2.1,
   (C8_malformed_row_matched_unaffected [wrow1] target_chrom browBad [brow1] (by decide)).2.2
     (by decide)⟩

/-- C9: the percentage equals matched/total*100 under the `total > 0` guard,
lies in [0, 100] when the total is positive, and is exactly 0 when the total
is 0 — no division-by-zero is possible. -/
theorem C9_percentage_bounds (w b : Finset Key) :
    ((find_matches w b).2.2
        = if 0 < w.card then ((w ∩ b).card : Rat) / (w.card : Rat) * 100 else 0)
    ∧ (0 < w.card → 0 ≤ (find_matches w b).2.2 ∧ (find_matches w b).2.2 ≤ 100)
    ∧ (w.card = 0 → (find_matches w b).2.2 = 0) := by
  have he : (find_matches w b).2.2
      = if 0 < w.card then ((w ∩ b).card : Rat) / (w.card : Rat) * 100 else 0 := rfl
  have hmc : (w ∩ b).card ≤ w.card := Finset.card_le_card Finset.inter_subset_left
  refine ⟨he, fun ht => ?_, fun ht => by rw [he, if_neg (by omega)]⟩
  rw [he, if_pos ht]
  have htq : (0 : Rat) < (w.card : Rat) := by exact_mod_cast ht
  constructor
  · positivity
  · have h1 : ((w ∩ b).card : Rat) / (w.card : Rat) ≤ 1 :=
      (div_le_one htq).mpr (by exact_mod_cast hmc)
    calc ((w ∩ b).card : Rat) / (w.card : Rat) * 100 ≤ 1 * 100 :=
          mul_le_mul_of_nonneg_right h1 (by norm_num)
      _ = 100 := by norm_num

/-- Witness for C9 at a singleton weights set matching itself. -/
theorem C9_percentage_bounds_witness :
    0 < ({(("22" : String), some "100")} : Finset Key).card
    ∧ (0 ≤ (find_matches ({(("22" : String), some "100")} : Finset Key)
          ({(("22" : String), some "100")} : Finset Key)).2.2
       ∧ (find_matches ({(("22" : String), some "100")} : Finset Key)
          ({(("22" : String), some "100")} : Finset Key)).2.2 ≤ 100) :=
  ⟨by decide,
   (C9_percentage_bounds {(("22" : String), some "100")} {(("22" : String), some "100")}).2.1
     (by decide)⟩

/-- C10: the match-sample and non-match-sample selections are truncated to
`example_limit` entries, and the list the match loop would build is bounded
by that same limit. -/
theorem C10_sample_capacity (wdf : List WeightsRow) (bdf : List BimRow)
    (matchedList nonMatchedList : List Key) (limit : Nat) :
    (match_sample_selection matchedList limit).length ≤ limit
    ∧ (non_match_sample_selection nonMatchedList limit).length ≤ limit
    ∧ (∀ out, collectMatchLoop wdf bdf (match_sample_selection matchedList limit)
          = Except.ok out → out.length ≤ limit) := by
  refine ⟨?_, ?_, ?_⟩
  · rw [match_sample_selection]
    exact List.length_take_le limit matchedList
  · rw [non_match_sample_selection]
    exact List.length_take_le limit nonMatchedList
  · intro out hout
    cases hms : match_sample_selection matchedList limit with
    | nil =>
      rw [hms] at hout
      have hnil : ([] : List ExampleMatch) = out := Except.ok.inj hout
      rw [← hnil]
      exact Nat.zero_le limit
    | cons k rest =>
      rw [hms] at hout
      obtain ⟨e, he⟩ := collectMatchLoop_cons_error wdf bdf k rest
      rw [he] at hout
      exact absurd hout (by simp)

/-- Witness for C10 at the empty selection. -/
theorem C10_sample_capacity_witness :
    (match_sample_selection ([] : List Key) 5).length ≤ 5
    ∧ (non_match_sample_selection ([] : List Key) 5).length ≤ 5
    ∧ ([] : List ExampleMatch).length ≤ 5 :=
  ⟨(C10_sample_capacity [] [] [] [] 5).1, (C10_sample_capacity [] [] [] [] 5).2.1,
   (C10_sample_capacity [] [] [] [] 5).2.2 [] rfl⟩

end CountPy
